import Mathlib

/-!
Shallow embedding of the robothub device-lifecycle coordinator, frame buffer
and live-view registry (source files: `robothub/frame_buffer.py`,
`robothub/live_view.py`, `robothub_depthai/manager.py`), together with
theorems settling the specification claims about them.

Conventions of the embedding:
* Python `deque(maxlen=...)` is a Lean `List` plus an `Option Nat` capacity;
  `maxlen=None` is `none` (unbounded).
* Timestamps (`msg.getTimestamp()` values and `datetime.timedelta` seconds)
  are rationals, so sub-second differences are exact.
* Fallible code returns `Except`; an exception-raising path is an `.error`
  value carrying the message the Python code builds.
* External collaborators (the AvWriter muxer, the agent transport, the
  device driver) are abstracted by constructors that record exactly the data
  handed to them, so theorems can speak about what was delivered.
-/

namespace RobotHub

/-- A ring-buffer entry: a frame record carrying a raw encoded payload and its
capture timestamp (`p.msg.getTimestamp()` in the source). -/
structure Packet where
  data : Nat
  timestamp : Rat
deriving DecidableEq, Repr

/-- State of `FrameBuffer` (`frame_buffer.py`): the `deque` with its `maxlen`,
and the `temporary_queues` dict mapping a generated token to its pending
queue, kept in insertion order. -/
structure FrameBuffer where
  maxlen : Option Nat
  buffer : List Packet
  temporaryQueues : List (Nat × List Packet)
deriving DecidableEq, Repr

/-- Appending to a Python `deque` with the given `maxlen`: unbounded when
`maxlen` is `None`; otherwise the oldest entries are evicted from the left
once the length exceeds the capacity (`maxlen=0` keeps the deque empty). -/
def dequeAppend (maxlen : Option Nat) (buf : List Packet) (p : Packet) : List Packet :=
  match maxlen with
  | none => buf ++ [p]
  | some m =>
    let b := buf ++ [p]
    if m < b.length then b.drop (b.length - m) else b

/-- `FrameBuffer.default_callback` (frame_buffer.py lines 130-136): append the
packet to the buffer and put it into every temporary queue. -/
def defaultCallback (fb : FrameBuffer) (p : Packet) : FrameBuffer :=
  { fb with
    buffer := dequeAppend fb.maxlen fb.buffer p
    temporaryQueues := fb.temporaryQueues.map (fun q => (q.1, q.2 ++ [p])) }

/-- `FrameBuffer.get_slice(start)` with no end (frame_buffer.py lines 25-35):
`itertools.islice(buffer, int(start), None)`, i.e. the entries from position
`start` to the end. `islice` raises `ValueError` on a negative start; the
callers below model that path explicitly, so here `start` is a `Nat`. -/
def getSlice (buf : List Packet) (start : Nat) : List Packet :=
  buf.drop start

/-- The exception classes a `FrameBuffer.save_video` call can surface,
tagged with the message where the source builds one. `blocked` stands for
the run in which `wait_until_complete` never sees a packet breaking its
loop and `queue.get(block=True)` blocks forever, so the call never returns. -/
inductive SaveError where
  | invalidArgument (msg : String)
  | typeError
  | sliceValueError
  | indexError
  | blocked
deriving DecidableEq, Repr

/-- Result of the external muxing collaborator (`FrameBuffer._mux_video`,
backed by `AvWriter`): a file path or an in-memory byte blob. The
constructors record the packet list and fps handed to the muxer. -/
inductive MuxResult where
  | filePath (packets : List Packet) (fps : Int)
  | byteBlob (packets : List Packet) (fps : Int)
deriving DecidableEq, Repr

/-- `FrameBuffer._mux_video` (frame_buffer.py lines 93-128), abstracting the
AvWriter: writes `packets` at `fps` and returns the path, or the file bytes
when `return_bytes` is true. -/
def muxVideo (packets : List Packet) (fps : Int) (returnBytes : Bool) : MuxResult :=
  if returnBytes then .byteBlob packets fps else .filePath packets fps

/-- The `wait_until_complete` loop of `save_video` (frame_buffer.py lines
70-84) run against the sequence of packets arriving on the temporary queue:
a packet is appended when its timestamp exceeds the pivot
(`latest_t_before`), and the loop breaks when a packet's timestamp exceeds
the pivot by more than `after_seconds`; both tests are made for every
arriving packet. `none` means no arriving packet ever breaks the loop, i.e.
the call blocks forever. -/
def collectAfter (pivot : Rat) (afterSeconds : Int) : List Packet → Option (List Packet)
  | [] => none
  | p :: rest =>
    if pivot < p.timestamp then
      if (afterSeconds : Rat) < p.timestamp - pivot then some [p]
      else (collectAfter pivot afterSeconds rest).map (fun l => p :: l)
    else
      if (afterSeconds : Rat) < p.timestamp - pivot then some []
      else collectAfter pivot afterSeconds rest

instance {ε α : Type} [DecidableEq ε] [DecidableEq α] : DecidableEq (Except ε α) := fun x y =>
  match x, y with
  | .error a, .error b => decidable_of_iff (a = b) (by simp)
  | .error _, .ok _ => isFalse (by simp)
  | .ok _, .error _ => isFalse (by simp)
  | .ok a, .ok b => decidable_of_iff (a = b) (by simp)

/-- Outcome of a `save_video` call: the returned value (or surfaced
exception) together with the `temporary_queues` registry at the moment the
call returns or the exception propagates. -/
structure SaveOutcome where
  result : Except SaveError MuxResult
  queues : List (Nat × List Packet)
deriving DecidableEq, Repr

/-- Removal of a tap from the registry (`self.temporary_queues.pop(queue_uuid)`):
drops the entry with the given token (the first one, matching dict
semantics where keys are unique). -/
def removeTap (queues : List (Nat × List Packet)) (tapId : Nat) : List (Nat × List Packet) :=
  queues.eraseP (fun q => q.1 == tapId)

/-- Lookup of a tap's pending queue by token. -/
def lookupTap (queues : List (Nat × List Packet)) (tapId : Nat) : Option (List Packet) :=
  (queues.find? (fun q => q.1 == tapId)).map (fun q => q.2)

/-- `FrameBuffer.save_video` (frame_buffer.py lines 37-91). The `av` import
guard at the top of the function is an environment check, modelled as
satisfied. `tapId` is the `uuid.uuid4()` token generated for the temporary
queue and `tapArrivals` is the sequence of packets delivered to that queue
while the call waits. Order of effects, as in the source: validate the
durations; compute the before-slice from `maxlen - before_seconds * fps`
(a `TypeError` when `maxlen` is `None`, a `ValueError` from `islice` when
the start is negative); register the temporary queue; take the timestamp of
the last before-entry (an `IndexError` when the slice is empty, leaving the
queue registered); run `wait_until_complete`; pop the queue; mux. -/
def saveVideo (fb : FrameBuffer) (beforeSeconds afterSeconds fps : Int)
    (tapId : Nat) (tapArrivals : List Packet) (returnBytes : Bool) : SaveOutcome :=
  if beforeSeconds < 0 ∨ afterSeconds < 0 then
    ⟨.error (.invalidArgument "`before_seconds` and `after_seconds` must be positive."),
     fb.temporaryQueues⟩
  else
    match fb.maxlen with
    | none => ⟨.error .typeError, fb.temporaryQueues⟩
    | some m =>
      let start : Int := (m : Int) - beforeSeconds * fps
      if start < 0 then ⟨.error .sliceValueError, fb.temporaryQueues⟩
      else
        let videoFramesBefore := getSlice fb.buffer start.toNat
        let queues1 := fb.temporaryQueues ++ [(tapId, [])]
        match videoFramesBefore.getLast? with
        | none => ⟨.error .indexError, queues1⟩
        | some lastBefore =>
          match collectAfter lastBefore.timestamp afterSeconds tapArrivals with
          | none => ⟨.error .blocked, queues1⟩
          | some videoFramesAfter =>
            ⟨.ok (muxVideo (videoFramesBefore ++ videoFramesAfter) fps returnBytes),
             removeTap queues1 tapId⟩

/-- The data a `LiveView` instance carries (live_view.py lines 106-140),
restricted to the fields the registry and export claims read. -/
structure LiveView where
  name : String
  uniqueKey : String
  deviceMxid : String
  frameWidth : Int
  frameHeight : Int
  fps : Int
deriving DecidableEq, Repr

/-- The process-wide `LIVE_VIEWS` registry (live_view.py line 447): a Python
dict keyed by unique key, kept in insertion order. -/
def LiveViewRegistry : Type := List (String × LiveView)

/-- Registration `LIVE_VIEWS[unique_key] = live_view` performed at the end of
`LiveView.create` (live_view.py line 186): dict assignment replaces the
value of an existing key in place, otherwise appends the new pair. -/
def registryInsert (reg : List (String × LiveView)) (k : String) (v : LiveView) :
    List (String × LiveView) :=
  if (reg.find? (fun e => e.1 == k)).isSome then
    reg.map (fun e => if e.1 == k then (e.1, v) else e)
  else reg ++ [(k, v)]

/-- `LiveView.get_by_unique_key` (live_view.py lines 301-313): dict lookup,
raising `ValueError` when the key is absent. -/
def getByUniqueKey (reg : List (String × LiveView)) (k : String) : Except String LiveView :=
  match reg.find? (fun e => e.1 == k) with
  | some e => .ok e.2
  | none => .error ("Live View with unique_key " ++ k ++ " does not exist.")

/-- `LiveView.get_by_name` (live_view.py lines 288-299): a linear scan over
`LIVE_VIEWS.values()` in insertion order returning the first Live View whose
name matches, or `None`. -/
def getByName (reg : List (String × LiveView)) (n : String) : Option LiveView :=
  (reg.find? (fun e => e.2.name == n)).map (fun e => e.2)

/-- Parameter names of `FrameBuffer.save_video` (frame_buffer.py lines
37-44): the keyword names a call may bind. -/
def saveVideoKwargNames : List String :=
  ["before_seconds", "after_seconds", "fps", "frame_width", "frame_height", "return_bytes"]

/-- The `kwargs` dict `LiveView.save_video_event` hands to the spawned
thread's target (live_view.py lines 337-345). -/
def saveVideoEventThreadKwargs : List String :=
  ["before_seconds", "after_seconds", "fps", "frame_width", "frame_height",
   "on_complete", "delete_after_complete"]

/-- Python keyword binding: a call raises `TypeError` unless every passed
keyword is among the callee's parameter names. -/
def pythonKwargsBind (accepted passed : List String) : Bool :=
  passed.all (fun k => accepted.contains k)

/-- The detached background task spawned by `LiveView.save_video_event`
(live_view.py lines 346-349): a daemon thread whose target is
`frame_buffer.save_video` called with the recorded keyword names, whose
`on_complete` closure sends a video event with the given title. -/
structure SpawnedThread where
  target : String
  kwargNames : List String
  daemon : Bool
  completionTitle : String
deriving DecidableEq, Repr

/-- `LiveView.save_video_event` (live_view.py lines 315-349): refuse when the
frame buffer's `maxlen` equals `0` (buffering disabled; `None == 0` is false
in Python, so an unbounded buffer passes), otherwise spawn the daemon
thread. The duration arguments are not validated here. -/
def saveVideoEvent (fbMaxlen : Option Nat) (beforeSeconds afterSeconds : Int)
    (title : String) : Except String SpawnedThread :=
  if fbMaxlen == some 0 then
    .error "You have set `max_buffer_size` to zero, therefore you cannot use frame buffer."
  else
    .ok { target := "FrameBuffer.save_video"
          kwargNames := saveVideoEventThreadKwargs
          daemon := true
          completionTitle := title }

/-- Connection state of a device (`robothub.DeviceState`). -/
inductive DeviceState where
  | disconnected
  | connecting
  | connected
deriving DecidableEq, Repr

/-- A managed device as the coordinator sees it (manager.py): the stable
MXID identity, the connection state, and the session handle `hub_camera`
(`none` after the polling loop clears it on disconnect). -/
structure Camera where
  deviceMxid : String
  state : DeviceState
  hubCamera : Option Unit
deriving DecidableEq, Repr

/-- State of `HubCameraManager` (manager.py lines 21-31): the `_devices`
list, the `_connected_devices` list (kept as MXIDs of the appended device
objects), the `running` flag and the `stop_event`. -/
structure Manager where
  devices : List Camera
  connectedDevices : List String
  running : Bool
  stopEvent : Bool
deriving DecidableEq, Repr

/-- Modelled from the spec: the `booted_cameras` property used by `_report`,
`_poll` and `stop` is not defined in src/. The spec describes the polling
and reporting loops as visiting each currently-connected device and the
Device data model gives a connected device a non-null session, so
`booted_cameras` is modelled as the devices whose session handle is
non-null. -/
def bootedCameras (m : Manager) : List Camera :=
  m.devices.filter (fun c => c.hubCamera.isSome)

/-- The flag mutation performed by `HubCameraManager.stop` (manager.py line
73): it sets `stop_event`; no statement of `stop` assigns `running`. -/
def stopSignal (m : Manager) : Manager :=
  { m with stopEvent := true }

/-- The `while self.running` guard of `_report` (manager.py line 112). -/
def reportLoopGuard (m : Manager) : Bool := m.running

/-- The `while self.running` guard of `_poll` (manager.py line 129). -/
def pollLoopGuard (m : Manager) : Bool := m.running

/-- The `while self.running` guard of `_connect` (manager.py line 142). -/
def connectLoopGuard (m : Manager) : Bool := m.running

/-- `HubCameraManager.add_device` (manager.py lines 95-99): append to
`_devices`; no duplicate-identity check is made. -/
def addDevice (m : Manager) (d : Camera) : Manager :=
  { m with devices := m.devices ++ [d] }

/-- `HubCameraManager.remove_device` (manager.py lines 101-105):
`list.remove`, dropping the first equal element. -/
def removeDevice (m : Manager) (d : Camera) : Manager :=
  { m with devices := m.devices.erase d }

/-- Modelled from the spec: `device.start()` is the Device Handle `start`
contract, which opens a session, so the device afterwards holds a non-null
handle and is connected. -/
def startCamera (c : Camera) : Camera :=
  { c with state := .connected, hubCamera := some () }

/-- The device-starting block of `HubCameraManager.start` (manager.py lines
53-56): start every device in `_devices` and append each to
`_connected_devices`. -/
def startDevices (m : Manager) : Manager :=
  { m with
    devices := m.devices.map startCamera
    connectedDevices := m.connectedDevices ++ m.devices.map (fun c => c.deviceMxid) }

/-- One device visit of the `_poll` loop body (manager.py lines 130-134)
for a device in `booted_cameras`: when `camera.poll()` reports failure the
session reference `hub_camera` is set to `None`; nothing else changes.
`pollOk` gives each device's poll result. -/
def pollCamera (pollOk : String → Bool) (c : Camera) : Camera :=
  if c.hubCamera.isSome then
    if pollOk c.deviceMxid then c else { c with hubCamera := none }
  else c

/-- One full iteration of the `_poll` loop body (manager.py lines 130-134):
visit the booted cameras and clear the session of each whose poll fails;
the `_devices` and `_connected_devices` lists are not touched. -/
def pollOnce (pollOk : String → Bool) (m : Manager) : Manager :=
  { m with devices := m.devices.map (pollCamera pollOk) }

/-- The idling test of the `_connect` loop (manager.py line 143): when
`len(self._connected_devices) == len(self._devices)` the loop waits out its
cadence and does nothing. -/
def connectIdles (m : Manager) : Bool :=
  m.connectedDevices.length == m.devices.length

/-- One iteration of the `_connect` loop body (manager.py lines 142-148):
when the counts match it waits; otherwise the reattachment block is a
commented-out TODO, so in either case the manager state is unchanged. -/
def connectOnce (m : Manager) : Manager := m

/-- A message published to the remote agent by the reporting loop. -/
inductive AgentMsg where
  | deviceInfo (mxid : String)
  | deviceStats (mxid : String)
deriving DecidableEq, Repr

/-- The per-device body of `_report` (manager.py lines 113-121): fetch the
info report then the stats report and publish both; any exception is caught
and logged, so a device whose info or stats call fails publishes nothing
and the loop proceeds. -/
def reportCamera (infoOk statsOk : String → Bool) (c : Camera) : List AgentMsg :=
  if infoOk c.deviceMxid then
    if statsOk c.deviceMxid then [.deviceInfo c.deviceMxid, .deviceStats c.deviceMxid]
    else []
  else []

/-- One full iteration of the `_report` loop body (manager.py lines
113-123): reports for the booted cameras are published to the agent; the
manager state is not mutated. -/
def reportOnce (infoOk statsOk : String → Bool) (m : Manager) : Manager × List AgentMsg :=
  (m, ((bootedCameras m).map (reportCamera infoOk statsOk)).flatten)

/-- The wrapped message `stop` raises when closing a device session fails
(manager.py line 91). -/
def closeErrMsg (mxid e : String) : String :=
  "Device " ++ mxid ++ ": could not exit with exception: " ++ e ++ "."

/-- The device-closing loop of `HubCameraManager.stop` (manager.py lines
84-91), over the booted cameras in order: a device not in the Disconnected
state has its session closed via `hub_camera.__exit__`; when that raises
(`closeFails` gives the failure, if any) the wrapped exception is re-raised
from inside the `for`, which aborts the loop. Returns the MXIDs whose close
was attempted, and the surfaced error if one was raised. -/
def closeCameras (closeFails : String → Option String) :
    List Camera → List String × Option String
  | [] => ([], none)
  | c :: rest =>
    if c.state != DeviceState.disconnected then
      match closeFails c.deviceMxid with
      | some e => ([c.deviceMxid], some (closeErrMsg c.deviceMxid e))
      | none =>
        let r := closeCameras closeFails rest
        (c.deviceMxid :: r.1, r.2)
    else closeCameras closeFails rest

/-- Outcome of the resource-release part of `stop` (manager.py lines
79-93): the MXIDs whose session close was attempted and, on failure, the
surfaced message. -/
inductive StopOutcome where
  | ok (attempted : List String)
  | failed (attempted : List String) (msg : String)
deriving DecidableEq, Repr

/-- The resource-release part of `HubCameraManager.stop` after the thread
joins (manager.py lines 79-93): destroy all remote streams (a failure is
wrapped and re-raised before any device is visited), then run the
device-closing loop. -/
def stopShutdown (destroyStreamsFails : Option String)
    (closeFails : String → Option String) (m : Manager) : StopOutcome :=
  match destroyStreamsFails with
  | some e => .failed [] ("Destroy all streams excepted with: " ++ e ++ ".")
  | none =>
    match closeCameras closeFails (bootedCameras m) with
    | (att, some msg) => .failed att msg
    | (att, none) => .ok att

/-- The invariant of the Device Set stated in the spec's data model: no
duplicate identities, and every device in the connected subset has a
non-null session handle. -/
def deviceInvariant (m : Manager) : Prop :=
  (m.devices.map (fun c => c.deviceMxid)).Nodup ∧
  ∀ mx ∈ m.connectedDevices, ∃ c ∈ m.devices, c.deviceMxid = mx ∧ c.hubCamera.isSome

instance (m : Manager) : Decidable (deviceInvariant m) := by
  unfold deviceInvariant
  infer_instance

/-- Sample connected device. -/
def camA : Camera := ⟨"mxid-A", .connected, some ()⟩

/-- Second sample connected device. -/
def camB : Camera := ⟨"mxid-B", .connected, some ()⟩

/-- Sample manager in the Running state with one connected device. -/
def mgrRunning : Manager := ⟨[camA], ["mxid-A"], true, false⟩

/-- Sample manager before start, with no devices. -/
def mgrEmpty : Manager := ⟨[], [], false, false⟩

/-- Packet constructor shorthand for concrete instances. -/
def pk (d : Nat) (t : Rat) : Packet := ⟨d, t⟩

/-- A capacity-4 frame buffer holding only 2 entries. -/
def fbPartial : FrameBuffer := ⟨some 4, [pk 0 0, pk 1 1], []⟩

/-- A capacity-4 frame buffer at capacity. -/
def fbFull : FrameBuffer := ⟨some 4, [pk 0 0, pk 1 1, pk 2 2, pk 3 3], []⟩

/-- Close-failure environment where only device `mxid-A` fails to close. -/
def closeFailsA : String → Option String :=
  fun mx => if mx == "mxid-A" then some "boom" else none

/-- Poll environment in which every poll reports disconnection. -/
def pollAllFail : String → Bool := fun _ => false

/-- Sample live view published under the name `Color stream`. -/
def lvFirst : LiveView := ⟨"Color stream", "mx1_color_encoded", "mx1", 1920, 1080, 30⟩

/-- A second live view carrying the same unique key as `lvFirst`. -/
def lvSecond : LiveView := ⟨"Depth stream", "mx1_color_encoded", "mx1", 1280, 720, 30⟩

/-- C1: the spec says `stop()` sets the shared cancellation flag and each of
the three loops observes it at its next wake and exits its loop body. In the
code each loop's while-condition is the separate `running` flag, which
`stop()` never clears: after `stop()` sets `stop_event`, every wait returns
immediately but all three loop guards still hold, so no loop exits and the
joins in `stop()` block indefinitely. This theorem evaluates the code at
the failing input. -/
theorem c1_stop_never_clears_running :
    (∀ m : Manager, (stopSignal m).running = m.running) ∧
    (stopSignal mgrRunning).stopEvent = true ∧
    reportLoopGuard (stopSignal mgrRunning) = true ∧
    pollLoopGuard (stopSignal mgrRunning) = true ∧
    connectLoopGuard (stopSignal mgrRunning) = true :=
  ⟨fun _ => rfl, rfl, rfl, rfl, rfl⟩

/-- C7: `save_video_event` on a buffering-enabled live view spawns the
daemon thread, but the spawned call cannot run: the thread target
`FrameBuffer.save_video` accepts none of the keywords `on_complete` and
`delete_after_complete` that the kwargs dict passes, so the thread raises
`TypeError` at once, the export never runs and the completion callback is
never invoked — contradicting the function's own docstring. -/
theorem c7_spawned_thread_kwargs_mismatch :
    saveVideoEvent (some 150) 5 5 "Event" =
      .ok ⟨"FrameBuffer.save_video", saveVideoEventThreadKwargs, true, "Event"⟩ ∧
    pythonKwargsBind saveVideoKwargNames saveVideoEventThreadKwargs = false ∧
    saveVideoEventThreadKwargs.contains "on_complete" = true ∧
    saveVideoKwargNames.contains "on_complete" = false := by
  refine ⟨rfl, ?_, ?_, ?_⟩ <;> decide

/-- C2 counterexample: with two booted, non-Disconnected devices where the
first device's session close raises, `stop()`'s closing loop re-raises the
wrapped error immediately, so the second device's close is never attempted —
refuting the claim that shutdown still attempts every remaining device
before raising. -/
theorem c2_counterexample :
    closeCameras closeFailsA [camA, camB] =
      (["mxid-A"], some "Device mxid-A: could not exit with exception: boom.") ∧
    (closeCameras closeFailsA [camA, camB]).1.contains "mxid-B" = false := by
  constructor <;> decide

/-- C3 counterexample: one connected device whose poll fails is demoted
(session cleared, device kept), yet `_connected_devices` is not updated, so
the connection loop's count check still sees 1 = 1 and keeps idling —
refuting the claim that the check stops idling when a device is demoted. -/
theorem c3_counterexample :
    (pollOnce pollAllFail mgrRunning).devices =
      [{ deviceMxid := "mxid-A", state := .connected, hubCamera := none }] ∧
    (pollOnce pollAllFail mgrRunning).connectedDevices = ["mxid-A"] ∧
    connectIdles (pollOnce pollAllFail mgrRunning) = true := by
  refine ⟨?_, ?_, ?_⟩ <;> decide

/-- C4 counterexample: `add_device` performs no duplicate-identity check, so
adding the same device twice to a manager that satisfies the device-set
invariant yields duplicate identities — the invariant is not preserved by
every operation sequence. -/
theorem c4_counterexample :
    deviceInvariant (addDevice mgrEmpty camA) ∧
    ¬ deviceInvariant (addDevice (addDevice mgrEmpty camA) camA) := by
  constructor <;> decide

theorem dequeAppend_some (m : Nat) (buf : List Packet) (p : Packet) :
    dequeAppend (some m) buf p = (buf ++ [p]).drop (buf.length + 1 - m) := by
  unfold dequeAppend
  simp only [List.length_append, List.length_singleton]
  split
  · rfl
  · next h =>
    rw [Nat.sub_eq_zero_of_le (Nat.le_of_not_lt h), List.drop_zero]

theorem foldl_dequeAppend_some (m : Nat) (xs : List Packet) :
    ∀ acc : List Packet, acc.length ≤ m →
      xs.foldl (dequeAppend (some m)) acc = (acc ++ xs).drop (acc.length + xs.length - m) := by
  induction xs with
  | nil =>
    intro acc hacc
    simp [Nat.sub_eq_zero_of_le hacc]
  | cons x xs ih =>
    intro acc hacc
    rw [List.foldl_cons, dequeAppend_some]
    have hlen : ((acc ++ [x]).drop (acc.length + 1 - m)).length
        = acc.length + 1 - (acc.length + 1 - m) := by
      simp [List.length_drop, List.length_append]
    have hle : ((acc ++ [x]).drop (acc.length + 1 - m)).length ≤ m := by
      rw [hlen]; omega
    rw [ih _ hle, hlen]
    have hside : acc.length + 1 - m ≤ (acc ++ [x]).length := by
      simp [List.length_append]
    rw [← List.drop_append_of_le_length hside, List.drop_drop]
    have hcat : (acc ++ [x]) ++ xs = acc ++ x :: xs := by simp
    rw [hcat]
    congr 1
    simp only [List.length_cons]
    omega

theorem foldl_defaultCallback_buffer (xs : List Packet) :
    ∀ fb : FrameBuffer,
      (xs.foldl defaultCallback fb).buffer = xs.foldl (dequeAppend fb.maxlen) fb.buffer := by
  induction xs with
  | nil => intro fb; rfl
  | cons x xs ih =>
    intro fb
    rw [List.foldl_cons, List.foldl_cons, ih (defaultCallback fb x)]
    rfl

/-- C8: pushing `C + k` entries through `default_callback` into a ring
buffer of capacity `C > 0` that starts empty leaves exactly the last `C`
pushed entries, in arrival order (the oldest were evicted first). -/
theorem c8_ring_buffer_keeps_last_C (C k : Nat) (hC : 0 < C) (xs : List Packet)
    (hlen : xs.length = C + k) (ts : List (Nat × List Packet)) :
    (xs.foldl defaultCallback { maxlen := some C, buffer := [], temporaryQueues := ts }).buffer
      = xs.drop k := by
  rw [foldl_defaultCallback_buffer]
  show xs.foldl (dequeAppend (some C)) [] = xs.drop k
  rw [foldl_dequeAppend_some C xs [] (by simp)]
  simp only [List.nil_append, List.length_nil, Nat.zero_add, hlen]
  congr 1
  omega

/-- Witness for C8 at a concrete input: capacity 2, three pushes keep the
last two packets. -/
theorem c8_ring_buffer_keeps_last_C_witness :
    (([pk 0 0, pk 1 1, pk 2 2].foldl defaultCallback
        { maxlen := some 2, buffer := [], temporaryQueues := [] }).buffer)
      = [pk 1 1, pk 2 2] := by
  have h := c8_ring_buffer_keeps_last_C 2 1 (by decide) [pk 0 0, pk 1 1, pk 2 2] (by decide) []
  rw [h]
  decide

theorem collectAfter_sound (pivot : Rat) (a : Int) (ha : 0 ≤ a) :
    ∀ trace l : List Packet, collectAfter pivot a trace = some l →
      (∀ p ∈ l, pivot < p.timestamp) ∧
      ∃ q, l.getLast? = some q ∧ (a : Rat) < q.timestamp - pivot := by
  intro trace
  induction trace with
  | nil =>
    intro l h
    simp [collectAfter] at h
  | cons p rest ih =>
    intro l h
    simp only [collectAfter] at h
    by_cases h1 : pivot < p.timestamp
    · rw [if_pos h1] at h
      by_cases h2 : (a : Rat) < p.timestamp - pivot
      · rw [if_pos h2] at h
        cases h
        refine ⟨?_, p, rfl, h2⟩
        intro x hx
        rw [List.mem_singleton] at hx
        rw [hx]
        exact h1
      · rw [if_neg h2] at h
        cases hr : collectAfter pivot a rest with
        | none => rw [hr] at h; simp at h
        | some tl =>
          rw [hr] at h
          replace h := Option.some.inj h
          obtain ⟨hmem, q, hlast, hq⟩ := ih tl hr
          subst h
          constructor
          · intro x hx
            rcases List.mem_cons.mp hx with hx | hx
            · rw [hx]; exact h1
            · exact hmem x hx
          · refine ⟨q, ?_, hq⟩
            rw [List.getLast?_cons, hlast]
            rfl
    · rw [if_neg h1] at h
      by_cases h2 : (a : Rat) < p.timestamp - pivot
      · exfalso
        have hle : p.timestamp - pivot ≤ 0 := by
          rw [not_lt] at h1
          linarith
        have haq : (0 : Rat) ≤ (a : Rat) := by exact_mod_cast ha
        linarith
      · rw [if_neg h2] at h
        exact ih l h

theorem saveVideo_success_eq (fb : FrameBuffer) (m : Nat) (beforeS afterS fps : Int)
    (tapId : Nat) (trace : List Packet) (rb : Bool) (lastB : Packet)
    (afterFrames : List Packet)
    (hm : fb.maxlen = some m) (hb : 0 ≤ beforeS) (ha : 0 ≤ afterS)
    (hstart : 0 ≤ (m : Int) - beforeS * fps)
    (hlast : (getSlice fb.buffer ((m : Int) - beforeS * fps).toNat).getLast? = some lastB)
    (hcol : collectAfter lastB.timestamp afterS trace = some afterFrames) :
    saveVideo fb beforeS afterS fps tapId trace rb =
      ⟨.ok (muxVideo (getSlice fb.buffer ((m : Int) - beforeS * fps).toNat ++ afterFrames)
              fps rb),
       removeTap (fb.temporaryQueues ++ [(tapId, [])]) tapId⟩ := by
  have hneg : ¬ (beforeS < 0 ∨ afterS < 0) := by omega
  unfold saveVideo
  rw [if_neg hneg]
  split
  · next heq =>
    rw [hm] at heq
    exact Option.noConfusion heq
  · next m' heq =>
    rw [hm] at heq
    injection heq with hm'
    subst hm'
    dsimp only
    rw [if_neg (not_lt.mpr hstart), hlast]
    dsimp only
    rw [hcol]

theorem saveVideo_indexError_eq (fb : FrameBuffer) (m : Nat) (beforeS afterS fps : Int)
    (tapId : Nat) (trace : List Packet) (rb : Bool)
    (hm : fb.maxlen = some m) (hb : 0 ≤ beforeS) (ha : 0 ≤ afterS)
    (hstart : 0 ≤ (m : Int) - beforeS * fps)
    (hlen : (fb.buffer.length : Int) ≤ (m : Int) - beforeS * fps) :
    saveVideo fb beforeS afterS fps tapId trace rb =
      ⟨.error .indexError, fb.temporaryQueues ++ [(tapId, [])]⟩ := by
  have hneg : ¬ (beforeS < 0 ∨ afterS < 0) := by omega
  have hnil : getSlice fb.buffer ((m : Int) - beforeS * fps).toNat = [] := by
    apply List.drop_eq_nil_of_le
    omega
  unfold saveVideo
  rw [if_neg hneg]
  split
  · next heq =>
    rw [hm] at heq
    exact Option.noConfusion heq
  · next m' heq =>
    rw [hm] at heq
    injection heq with hm'
    subst hm'
    dsimp only
    rw [if_neg (not_lt.mpr hstart), hnil]
    rfl

theorem lookupTap_none_of_fresh (t : Nat) :
    ∀ l : List (Nat × List Packet), (∀ q ∈ l, q.1 ≠ t) → lookupTap l t = none := by
  intro l
  induction l with
  | nil => intro _; rfl
  | cons e rest ih =>
    intro h
    have he : ¬ ((fun q : Nat × List Packet => q.1 == t) e = true) := by
      simp only [beq_iff_eq]
      exact h e (List.mem_cons_self e rest)
    unfold lookupTap
    rw [List.find?_cons_of_neg rest he]
    exact ih (fun q hq => h q (List.mem_cons_of_mem e hq))

theorem lookupTap_append_fresh (t : Nat) (x : List Packet) :
    ∀ l : List (Nat × List Packet), (∀ q ∈ l, q.1 ≠ t) →
      lookupTap (l ++ [(t, x)]) t = some x := by
  intro l
  induction l with
  | nil => simp [lookupTap, List.find?]
  | cons e rest ih =>
    intro h
    have he : ¬ ((fun q : Nat × List Packet => q.1 == t) e = true) := by
      simp only [beq_iff_eq]
      exact h e (List.mem_cons_self e rest)
    unfold lookupTap
    rw [List.cons_append, List.find?_cons_of_neg (rest ++ [(t, x)]) he]
    exact ih (fun q hq => h q (List.mem_cons_of_mem e hq))

theorem removeTap_append_fresh (t : Nat) (x : List Packet) :
    ∀ l : List (Nat × List Packet), (∀ q ∈ l, q.1 ≠ t) →
      removeTap (l ++ [(t, x)]) t = l := by
  intro l
  induction l with
  | nil => simp [removeTap, List.eraseP]
  | cons e rest ih =>
    intro h
    have he : ¬ ((fun q : Nat × List Packet => q.1 == t) e = true) := by
      simp only [beq_iff_eq]
      exact h e (List.mem_cons_self e rest)
    unfold removeTap
    rw [List.cons_append, List.eraseP_cons_of_neg (p := fun q : Nat × List Packet => q.1 == t) he]
    have := ih (fun q hq => h q (List.mem_cons_of_mem e hq))
    unfold removeTap at this
    rw [this]

theorem lookupTap_map_enqueue (t : Nat) (p : Packet) :
    ∀ l : List (Nat × List Packet),
      lookupTap (l.map (fun q => (q.1, q.2 ++ [p]))) t
        = (lookupTap l t).map (fun xs => xs ++ [p]) := by
  intro l
  induction l with
  | nil => rfl
  | cons e rest ih =>
    by_cases he : ((fun q : Nat × List Packet => q.1 == t) e = true)
    · unfold lookupTap
      have he2 : ((fun q : Nat × List Packet => q.1 == t) (e.1, e.2 ++ [p]) = true) := he
      rw [List.map_cons, List.find?_cons_of_pos (rest.map (fun q => (q.1, q.2 ++ [p]))) he2,
        List.find?_cons_of_pos rest he]
      rfl
    · unfold lookupTap
      have he2 : ¬ ((fun q : Nat × List Packet => q.1 == t) (e.1, e.2 ++ [p]) = true) := he
      rw [List.map_cons, List.find?_cons_of_neg (rest.map (fun q => (q.1, q.2 ++ [p]))) he2,
        List.find?_cons_of_neg rest he]
      exact ih

/-- C5 counterexample: `fbPartial` has capacity 4 and holds 2 entries; with
`before_seconds = 1` and `fps = 1` it holds at least `b·f = 1` prior
entries, so the claim's hypothesis is met — yet the before-slice starts at
index `4 - 1 = 3`, beyond the 2 stored entries, so it is empty and
`save_video` raises `IndexError` instead of performing the described
export. -/
theorem c5_counterexample :
    fbPartial.buffer.length = 2 ∧
    (saveVideo fbPartial 1 0 1 7 [] false).result = .error .indexError := by
  constructor
  · rfl
  · decide

/-- C5 (amended): when the buffer additionally holds more than
`capacity − before_seconds·fps` entries — so the before-slice read from
index `capacity − b·f` is non-empty, with `lastB` its last entry — and some
tapped packet eventually exceeds the pivot by more than `after_seconds`,
`save_video` returns the mux of the before-slice concatenated with the
collected after-entries (a path or byte blob per `return_bytes`), closes
its tap, every collected after-entry's timestamp exceeds the pivot, and
collection stopped at an entry lying more than `after_seconds` past the
pivot (so the covered span reaches at least `after_seconds`). -/
theorem c5_amended_save_video_algorithm (fb : FrameBuffer) (m : Nat)
    (beforeS afterS fps : Int) (tapId : Nat) (trace : List Packet) (rb : Bool)
    (lastB : Packet) (afterFrames : List Packet)
    (hm : fb.maxlen = some m) (hb : 0 ≤ beforeS) (ha : 0 ≤ afterS)
    (hstart : 0 ≤ (m : Int) - beforeS * fps)
    (hlast : (getSlice fb.buffer ((m : Int) - beforeS * fps).toNat).getLast? = some lastB)
    (hcol : collectAfter lastB.timestamp afterS trace = some afterFrames) :
    saveVideo fb beforeS afterS fps tapId trace rb =
      ⟨.ok (muxVideo (getSlice fb.buffer ((m : Int) - beforeS * fps).toNat ++ afterFrames)
              fps rb),
       removeTap (fb.temporaryQueues ++ [(tapId, [])]) tapId⟩ ∧
    (∀ p ∈ afterFrames, lastB.timestamp < p.timestamp) ∧
    (∃ q, afterFrames.getLast? = some q ∧ (afterS : Rat) < q.timestamp - lastB.timestamp) := by
  obtain ⟨hmem, hlastq⟩ := collectAfter_sound lastB.timestamp afterS ha trace afterFrames hcol
  exact ⟨saveVideo_success_eq fb m beforeS afterS fps tapId trace rb lastB afterFrames
    hm hb ha hstart hlast hcol, hmem, hlastq⟩

/-- Witness for C5 (amended) at a concrete input: a full capacity-4 buffer,
`before = after = fps = 1`, with two packets arriving on the tap. -/
theorem c5_amended_save_video_algorithm_witness :
    saveVideo fbFull 1 1 1 9 [pk 4 4, pk 5 5] false =
      ⟨.ok (muxVideo (getSlice fbFull.buffer 3 ++ [pk 4 4, pk 5 5]) 1 false),
       removeTap (fbFull.temporaryQueues ++ [(9, [])]) 9⟩ :=
  (c5_amended_save_video_algorithm fbFull 4 1 1 1 9 [pk 4 4, pk 5 5] false (pk 3 3)
    [pk 4 4, pk 5 5] rfl (by decide) (by decide) (by decide) (by decide)
    (by norm_num [collectAfter, pk])).1

/-- C10: calling `save_video` on a bounded buffer whose length is at most
`capacity − before_seconds·fps` (empty before-slice) raises `IndexError`
after the temporary tap was already registered; the exception propagates
without removing the tap, whose (empty) queue stays in the registry, so
every subsequent `default_callback` push keeps enqueuing into the orphaned
queue; and a run of `save_video` that returns successfully — i.e. reaches
the muxing step — is one after which the tap is no longer registered. -/
theorem c10_orphaned_tap_on_index_error (fb : FrameBuffer) (m : Nat)
    (beforeS afterS fps : Int) (tapId : Nat) (trace : List Packet) (rb : Bool)
    (hm : fb.maxlen = some m) (hb : 0 ≤ beforeS) (ha : 0 ≤ afterS)
    (hstart : 0 ≤ (m : Int) - beforeS * fps)
    (hlen : (fb.buffer.length : Int) ≤ (m : Int) - beforeS * fps)
    (hfresh : ∀ q ∈ fb.temporaryQueues, q.1 ≠ tapId) :
    saveVideo fb beforeS afterS fps tapId trace rb =
      ⟨.error .indexError, fb.temporaryQueues ++ [(tapId, [])]⟩ ∧
    lookupTap (saveVideo fb beforeS afterS fps tapId trace rb).queues tapId = some [] ∧
    (∀ (p : Packet) (buf2 : List Packet),
      lookupTap ((defaultCallback
          ⟨fb.maxlen, buf2, (saveVideo fb beforeS afterS fps tapId trace rb).queues⟩
          p).temporaryQueues) tapId = some [p]) ∧
    (∀ (fb2 : FrameBuffer) (m2 : Nat) (b2 a2 f2 : Int) (tr2 : List Packet) (rb2 : Bool)
        (lastB2 : Packet) (af2 : List Packet),
      fb2.maxlen = some m2 → 0 ≤ b2 → 0 ≤ a2 → 0 ≤ (m2 : Int) - b2 * f2 →
      (getSlice fb2.buffer ((m2 : Int) - b2 * f2).toNat).getLast? = some lastB2 →
      collectAfter lastB2.timestamp a2 tr2 = some af2 →
      (∀ q ∈ fb2.temporaryQueues, q.1 ≠ tapId) →
      lookupTap (saveVideo fb2 b2 a2 f2 tapId tr2 rb2).queues tapId = none) := by
  have heq := saveVideo_indexError_eq fb m beforeS afterS fps tapId trace rb
    hm hb ha hstart hlen
  refine ⟨heq, ?_, ?_, ?_⟩
  · rw [heq]
    exact lookupTap_append_fresh tapId [] fb.temporaryQueues hfresh
  · intro p buf2
    rw [heq]
    show lookupTap ((fb.temporaryQueues ++ [(tapId, [])]).map
      (fun q : Nat × List Packet => (q.1, q.2 ++ [p]))) tapId = some [p]
    rw [lookupTap_map_enqueue tapId p (fb.temporaryQueues ++ [(tapId, [])]),
      lookupTap_append_fresh tapId [] fb.temporaryQueues hfresh]
    rfl
  · intro fb2 m2 b2 a2 f2 tr2 rb2 lastB2 af2 hm2 hb2 ha2 hstart2 hlast2 hcol2 hfresh2
    rw [saveVideo_success_eq fb2 m2 b2 a2 f2 tapId tr2 rb2 lastB2 af2
      hm2 hb2 ha2 hstart2 hlast2 hcol2]
    show lookupTap (removeTap (fb2.temporaryQueues ++ [(tapId, [])]) tapId) tapId = none
    rw [removeTap_append_fresh tapId [] fb2.temporaryQueues hfresh2]
    exact lookupTap_none_of_fresh tapId fb2.temporaryQueues hfresh2

/-- Witness for C10 at a concrete input: the partially-filled buffer of the
C5 counterexample with tap token 7. -/
theorem c10_orphaned_tap_on_index_error_witness :
    saveVideo fbPartial 1 0 1 7 [] false =
      ⟨.error .indexError, fbPartial.temporaryQueues ++ [(7, [])]⟩ :=
  (c10_orphaned_tap_on_index_error fbPartial 4 1 0 1 7 [] false rfl (by decide) (by decide)
    (by decide) (by decide) (by decide)).1

theorem pollCamera_deviceMxid (pollOk : String → Bool) (c : Camera) :
    (pollCamera pollOk c).deviceMxid = c.deviceMxid := by
  unfold pollCamera
  by_cases h1 : c.hubCamera.isSome = true
  · rw [if_pos h1]
    by_cases h2 : pollOk c.deviceMxid = true
    · rw [if_pos h2]
    · rw [if_neg h2]
  · rw [if_neg h1]

theorem pollOnce_devices_mxids (pollOk : String → Bool) (m : Manager) :
    (pollOnce pollOk m).devices.map (fun c => c.deviceMxid)
      = m.devices.map (fun c => c.deviceMxid) := by
  show (m.devices.map (pollCamera pollOk)).map (fun c => c.deviceMxid)
    = m.devices.map (fun c => c.deviceMxid)
  rw [List.map_map]
  exact List.map_eq_map_iff.mpr (fun c _ => pollCamera_deviceMxid pollOk c)

/-- C3 (amended): a poll failure makes the polling loop clear the device's
session reference while keeping the Device in the device set (identities
unchanged, the demoted copy still present), and the device leaves the
connected-by-session subset; but `_connected_devices` is not updated, so
the connection loop's count check gives the same verdict as before the
demotion and — being an idling no-op — the demoted device does not become
eligible for reattachment. -/
theorem c3_amended_demotion_keeps_connect_idle (m : Manager) (pollOk : String → Bool) :
    (pollOnce pollOk m).devices.map (fun c => c.deviceMxid)
      = m.devices.map (fun c => c.deviceMxid) ∧
    (pollOnce pollOk m).connectedDevices = m.connectedDevices ∧
    connectIdles (pollOnce pollOk m) = connectIdles m ∧
    ∀ c ∈ m.devices, c.hubCamera.isSome → pollOk c.deviceMxid = false →
      ({ deviceMxid := c.deviceMxid, state := c.state, hubCamera := none } : Camera)
        ∈ (pollOnce pollOk m).devices := by
  refine ⟨pollOnce_devices_mxids pollOk m, rfl, ?_, ?_⟩
  · unfold connectIdles pollOnce
    simp [List.length_map]
  · intro c hc hsome hfail
    have : pollCamera pollOk c
        = ({ deviceMxid := c.deviceMxid, state := c.state, hubCamera := none } : Camera) := by
      unfold pollCamera
      rw [if_pos hsome, if_neg (by rw [hfail]; exact Bool.false_ne_true)]
    exact this ▸ List.mem_map_of_mem (pollCamera pollOk) hc

/-- Witness for C3 (amended) at the concrete demotion input of the
counterexample manager. -/
theorem c3_amended_demotion_keeps_connect_idle_witness :
    connectIdles (pollOnce pollAllFail mgrRunning) = connectIdles mgrRunning ∧
    ({ deviceMxid := "mxid-A", state := .connected, hubCamera := none } : Camera)
      ∈ (pollOnce pollAllFail mgrRunning).devices := by
  have h := c3_amended_demotion_keeps_connect_idle mgrRunning pollAllFail
  exact ⟨h.2.2.1, h.2.2.2 camA (by decide) (by decide) (by decide)⟩

/-- C4 (amended): the three loops preserve the membership of the device set
and of the connected list — one reporting iteration and one connection
iteration leave the manager unchanged, one polling iteration only rewrites
session handles, preserving identities (hence no-duplicates is preserved by
the loops) — but `add_device` appends its argument with no duplicate-identity
check, and a demotion leaves the device in `_connected_devices` with a null
session, so the full invariant is not preserved by every operation
sequence. -/
theorem c4_amended_loops_preserve_membership (m : Manager)
    (pollOk infoOk statsOk : String → Bool) (d : Camera) :
    (pollOnce pollOk m).devices.map (fun c => c.deviceMxid)
      = m.devices.map (fun c => c.deviceMxid) ∧
    (pollOnce pollOk m).connectedDevices = m.connectedDevices ∧
    (reportOnce infoOk statsOk m).1 = m ∧
    connectOnce m = m ∧
    ((m.devices.map (fun c => c.deviceMxid)).Nodup →
      ((pollOnce pollOk m).devices.map (fun c => c.deviceMxid)).Nodup) ∧
    (addDevice m d).devices = m.devices ++ [d] := by
  refine ⟨pollOnce_devices_mxids pollOk m, rfl, rfl, rfl, ?_, rfl⟩
  intro h
  rw [pollOnce_devices_mxids pollOk m]
  exact h

/-- Witness for C4 (amended) at a concrete input. -/
theorem c4_amended_loops_preserve_membership_witness :
    (pollOnce pollAllFail mgrRunning).devices.map (fun c => c.deviceMxid) = ["mxid-A"] ∧
    ((pollOnce pollAllFail mgrRunning).devices.map (fun c => c.deviceMxid)).Nodup := by
  have h := c4_amended_loops_preserve_membership mgrRunning pollAllFail
    (fun _ => true) (fun _ => true) camB
  refine ⟨?_, h.2.2.2.2.1 (by decide)⟩
  rw [h.1]
  decide

theorem closeCameras_all_ok (closeFails : String → Option String) :
    ∀ cams : List Camera,
      (∀ c ∈ cams, c.state ≠ DeviceState.disconnected → closeFails c.deviceMxid = none) →
      closeCameras closeFails cams =
        ((cams.filter (fun c => c.state != DeviceState.disconnected)).map
           (fun c => c.deviceMxid), none) := by
  intro cams
  induction cams with
  | nil => intro _; rfl
  | cons c rest ih =>
    intro h
    have hrest := fun x hx => h x (List.mem_cons_of_mem c hx)
    by_cases hc : c.state = DeviceState.disconnected
    · have hb : (c.state != DeviceState.disconnected) = false := by simp [hc]
      simp only [closeCameras]
      rw [if_neg (by rw [hb]; exact Bool.false_ne_true),
        List.filter_cons_of_neg (p := fun c : Camera => c.state != DeviceState.disconnected)
          (by simpa using hb)]
      exact ih hrest
    · have hb : (c.state != DeviceState.disconnected) = true := by simp [hc]
      have hnone := h c (List.mem_cons_self c rest) hc
      simp only [closeCameras]
      rw [if_pos hb, hnone,
        List.filter_cons_of_pos (p := fun c : Camera => c.state != DeviceState.disconnected) hb,
        List.map_cons]
      dsimp only
      rw [ih hrest]

/-- C2 (amended): a failure destroying the remote streams, or closing a
device session, during `stop()` is wrapped with context naming the failing
resource or device and surfaced to the caller; but shutdown stops at the
first failure rather than attempting the rest — a stream-destroy failure is
re-raised before any device session close is attempted, and the close loop
re-raises from inside the `for`, so the failing device is the last one
attempted and later devices are skipped. Only in a failure-free run is
every booted, non-Disconnected device's session close attempted exactly
once, in order (and such a run of the shutdown tail succeeds). -/
theorem c2_amended_shutdown_stops_at_first_failure (closeFails : String → Option String) :
    (∀ cams : List Camera,
      (∀ c ∈ cams, c.state ≠ DeviceState.disconnected → closeFails c.deviceMxid = none) →
      closeCameras closeFails cams =
        ((cams.filter (fun c => c.state != DeviceState.disconnected)).map
           (fun c => c.deviceMxid), none)) ∧
    (∀ (pre post : List Camera) (c : Camera) (e : String),
      (∀ x ∈ pre, x.state ≠ DeviceState.disconnected → closeFails x.deviceMxid = none) →
      c.state ≠ DeviceState.disconnected → closeFails c.deviceMxid = some e →
      closeCameras closeFails (pre ++ c :: post) =
        ((pre.filter (fun x => x.state != DeviceState.disconnected)).map
           (fun x => x.deviceMxid) ++ [c.deviceMxid],
         some (closeErrMsg c.deviceMxid e))) ∧
    (∀ (e : String) (m : Manager),
      stopShutdown (some e) closeFails m =
        .failed [] ("Destroy all streams excepted with: " ++ e ++ ".")) ∧
    (∀ m : Manager,
      (∀ c ∈ bootedCameras m, c.state ≠ DeviceState.disconnected →
        closeFails c.deviceMxid = none) →
      stopShutdown none closeFails m =
        .ok (((bootedCameras m).filter (fun c => c.state != DeviceState.disconnected)).map
          (fun c => c.deviceMxid))) := by
  refine ⟨closeCameras_all_ok closeFails, ?_, ?_, ?_⟩
  case refine_2 =>
    intro e m
    rfl
  case refine_3 =>
    intro m h
    unfold stopShutdown
    rw [closeCameras_all_ok closeFails (bootedCameras m) h]
  · intro pre
    induction pre with
    | nil =>
      intro post c e _ hc hfail
      have hb : (c.state != DeviceState.disconnected) = true := by simp [hc]
      rw [List.nil_append]
      simp only [closeCameras]
      rw [if_pos hb, hfail]
      rfl
    | cons x pre ih =>
      intro post c e hpre hc hfail
      have hxrest := fun y hy => hpre y (List.mem_cons_of_mem x hy)
      by_cases hx : x.state = DeviceState.disconnected
      · have hb : (x.state != DeviceState.disconnected) = false := by simp [hx]
        rw [List.cons_append]
        simp only [closeCameras]
        rw [if_neg (by rw [hb]; exact Bool.false_ne_true),
          List.filter_cons_of_neg (p := fun c : Camera => c.state != DeviceState.disconnected)
            (by simpa using hb)]
        exact ih post c e hxrest hc hfail
      · have hb : (x.state != DeviceState.disconnected) = true := by simp [hx]
        have hnone := hpre x (List.mem_cons_self x pre) hx
        rw [List.cons_append]
        simp only [closeCameras]
        rw [if_pos hb, hnone,
          List.filter_cons_of_pos (p := fun c : Camera => c.state != DeviceState.disconnected) hb,
          List.map_cons]
        dsimp only
        rw [ih post c e hxrest hc hfail]
        rfl

/-- Witness for C2 (amended) at concrete inputs: device `mxid-B` closes
fine, device `mxid-A` fails, so the attempted list ends at `mxid-A` and the
wrapped message names it; and a concrete stream-destroy failure during the
shutdown tail is wrapped naming the resource and surfaced with no device
close attempted. -/
theorem c2_amended_shutdown_stops_at_first_failure_witness :
    closeCameras closeFailsA [camB, camA] =
      (["mxid-B", "mxid-A"], some "Device mxid-A: could not exit with exception: boom.") ∧
    stopShutdown (some "socket closed") closeFailsA mgrRunning =
      .failed [] "Destroy all streams excepted with: socket closed." := by
  constructor
  · have h := (c2_amended_shutdown_stops_at_first_failure closeFailsA).2.1 [camB] [] camA "boom"
      (by decide) (by decide) (by decide)
    rw [List.singleton_append] at h
    rw [h]
    rfl
  · exact (c2_amended_shutdown_stops_at_first_failure closeFailsA).2.2.1 "socket closed"
      mgrRunning

/-- C6: a `save_video` request with negative `before_seconds` or
`after_seconds` fails immediately — before any slicing or tap registration,
with the tap registry untouched — raising the descriptive `ValueError`
(the InvalidArgument condition); and a video-export request on a Live View
whose buffer capacity is zero fails immediately in `save_video_event` with
the descriptive buffering-disabled exception (the Disabled condition),
before any thread is spawned. Each failure is raised to that call's
caller. -/
theorem c6_invalid_argument_and_disabled (fb : FrameBuffer) (beforeS afterS fps : Int)
    (tapId : Nat) (trace : List Packet) (rb : Bool) (fbMaxlen : Option Nat)
    (b2 a2 : Int) (title : String) :
    (beforeS < 0 ∨ afterS < 0 →
      saveVideo fb beforeS afterS fps tapId trace rb =
        ⟨.error (.invalidArgument "`before_seconds` and `after_seconds` must be positive."),
         fb.temporaryQueues⟩) ∧
    (fbMaxlen = some 0 →
      saveVideoEvent fbMaxlen b2 a2 title =
        .error "You have set `max_buffer_size` to zero, therefore you cannot use frame buffer.") := by
  constructor
  · intro h
    unfold saveVideo
    rw [if_pos h]
  · intro h
    subst h
    rfl

/-- Witness for C6 at concrete inputs: `before_seconds = -1` on a real
buffer, and a zero-capacity buffer's export request. -/
theorem c6_invalid_argument_and_disabled_witness :
    saveVideo fbPartial (-1) 5 1 7 [] false =
      ⟨.error (.invalidArgument "`before_seconds` and `after_seconds` must be positive."),
       fbPartial.temporaryQueues⟩ ∧
    saveVideoEvent (some 0) 1 1 "Event" =
      .error "You have set `max_buffer_size` to zero, therefore you cannot use frame buffer." :=
  ⟨(c6_invalid_argument_and_disabled fbPartial (-1) 5 1 7 [] false (some 0) 1 1 "Event").1
      (Or.inl (by decide)),
   (c6_invalid_argument_and_disabled fbPartial (-1) 5 1 7 [] false (some 0) 1 1 "Event").2 rfl⟩

theorem getByUniqueKey_registryInsert_self (k : String) (v : LiveView) :
    ∀ reg : List (String × LiveView),
      getByUniqueKey (registryInsert reg k v) k = .ok v := by
  intro reg
  induction reg with
  | nil =>
    unfold registryInsert
    rw [if_neg (by rw [List.find?_nil]; exact Bool.false_ne_true)]
    unfold getByUniqueKey
    rw [List.nil_append, List.find?_cons_of_pos [] (by simp)]
  | cons hd tl ih =>
    by_cases hhd : ((fun e : String × LiveView => e.1 == k) hd) = true
    · have hfound : (((hd :: tl).find? (fun e => e.1 == k)).isSome) = true := by
        rw [List.find?_cons_of_pos tl hhd]
        rfl
      unfold registryInsert
      rw [if_pos hfound, List.map_cons, if_pos (show (hd.1 == k) = true from hhd)]
      unfold getByUniqueKey
      rw [List.find?_cons_of_pos (tl.map (fun e => if e.1 == k then (e.1, v) else e))
        (show ((fun e : String × LiveView => e.1 == k) (hd.1, v)) = true from hhd)]
    · have hskip : ((hd :: tl).find? (fun e => e.1 == k))
          = (tl.find? (fun e => e.1 == k)) := List.find?_cons_of_neg tl hhd
      by_cases hf : ((tl.find? (fun e : String × LiveView => e.1 == k)).isSome) = true
      · have hfound : (((hd :: tl).find? (fun e => e.1 == k)).isSome) = true := by
          rw [hskip]; exact hf
        unfold registryInsert
        rw [if_pos hfound, List.map_cons,
          if_neg (show ¬ ((hd.1 == k) = true) from hhd)]
        unfold getByUniqueKey
        rw [List.find?_cons_of_neg (tl.map (fun e => if e.1 == k then (e.1, v) else e)) hhd]
        have := ih
        unfold registryInsert at this
        rw [if_pos hf] at this
        unfold getByUniqueKey at this
        exact this
      · have hnot : ¬ (((hd :: tl).find? (fun e => e.1 == k)).isSome) = true := by
          rw [hskip]; exact hf
        unfold registryInsert
        rw [if_neg hnot, List.cons_append]
        unfold getByUniqueKey
        rw [List.find?_cons_of_neg (tl ++ [(k, v)]) hhd]
        have := ih
        unfold registryInsert at this
        rw [if_neg hf] at this
        unfold getByUniqueKey at this
        exact this

theorem getByUniqueKey_found (r : List (String × LiveView)) (k : String) (v : LiveView)
    (h : getByUniqueKey r k = .ok v) : ((r.find? (fun e => e.1 == k)).isSome) = true := by
  unfold getByUniqueKey at h
  cases hf : r.find? (fun e => e.1 == k) with
  | none =>
    rw [hf] at h
    exact Except.noConfusion h
  | some e => rfl

theorem registryInsert_fst_of_found (reg : List (String × LiveView)) (k : String) (v : LiveView)
    (h : ((reg.find? (fun e : String × LiveView => e.1 == k)).isSome) = true) :
    (registryInsert reg k v).map Prod.fst = reg.map Prod.fst := by
  unfold registryInsert
  rw [if_pos h, List.map_map]
  refine List.map_eq_map_iff.mpr ?_
  intro e _
  by_cases hk : ((e.1 == k)) = true
  · show Prod.fst (if e.1 == k then (e.1, v) else e) = e.1
    rw [if_pos hk]
  · show Prod.fst (if e.1 == k then (e.1, v) else e) = e.1
    rw [if_neg (by simpa using hk)]

theorem getByName_cons_eq (e : String × LiveView) (rest : List (String × LiveView)) (n : String) :
    getByName (e :: rest) n = if e.2.name == n then some e.2 else getByName rest n := by
  by_cases h : ((fun q : String × LiveView => q.2.name == n) e) = true
  · unfold getByName
    rw [List.find?_cons_of_pos rest h, if_pos h]
    rfl
  · unfold getByName
    rw [List.find?_cons_of_neg rest h, if_neg (by simpa using h)]

/-- C9: registering a second Live View under an already-used unique key
silently replaces the first — the lookup afterwards yields the second
object and the registry's key sequence is unchanged (no new entry) — and
`get_by_name` is a linear scan in registration order: on an empty registry
it yields none, and on a non-empty one it yields the head when its name
matches, deferring to the rest otherwise (so an ambiguous name returns the
first match and is not an error). -/
theorem c9_registry_replacement_and_name_lookup (reg : List (String × LiveView))
    (k n : String) (v1 v2 : LiveView) (e : String × LiveView)
    (rest : List (String × LiveView)) :
    getByUniqueKey (registryInsert (registryInsert reg k v1) k v2) k = .ok v2 ∧
    (registryInsert (registryInsert reg k v1) k v2).map Prod.fst
      = (registryInsert reg k v1).map Prod.fst ∧
    getByName [] n = none ∧
    getByName (e :: rest) n = (if e.2.name == n then some e.2 else getByName rest n) := by
  refine ⟨getByUniqueKey_registryInsert_self k v2 (registryInsert reg k v1), ?_, rfl,
    getByName_cons_eq e rest n⟩
  exact registryInsert_fst_of_found (registryInsert reg k v1) k v2
    (getByUniqueKey_found (registryInsert reg k v1) k v1
      (getByUniqueKey_registryInsert_self k v1 reg))

/-- Witness for C9 at a concrete input: two live views sharing the unique
key `mx1_color_encoded`. -/
theorem c9_registry_replacement_and_name_lookup_witness :
    getByUniqueKey
        (registryInsert (registryInsert [] "mx1_color_encoded" lvFirst)
          "mx1_color_encoded" lvSecond)
        "mx1_color_encoded" = .ok lvSecond :=
  (c9_registry_replacement_and_name_lookup [] "mx1_color_encoded" "Color stream"
    lvFirst lvSecond ("x", lvFirst) []).1

end RobotHub
